import Mathlib

/-!
Verification of `django_components` utility functions
(`src/django_components/utils.py`) and the component-directory loader,
as a shallow embedding in Lean.

Python machine-level details are modelled as follows:
* Python runtime values carry their class name (`PyValue`); Python's
  `isinstance` is an explicit parameter `inst` of the validators, since its
  behaviour (subclassing, virtual subclasses) is external to this module.
* `sys.version_info >= (3, 11)` is the explicit boolean parameter `ver311`.
* raising `TypeError` is modelled with `Except TypeErr`; the `TypeErr`
  constructors carry exactly the data interpolated into the Python
  f-strings of the source.
* Python strings are `List Char`; dicts are association lists with
  distinct keys (distinctness is a hypothesis where a proof needs it).
-/

set_option autoImplicit false

namespace DjangoComponents

/-! ## Embedding of the type-validation helpers -/

/-- A Python type annotation as consumed by the validators.
`cls name` is a plain class (no `__origin__` attribute).
`generic origin typing_export` is a subscripted generic whose
`__origin__` is the class `origin`; `typing_export` records whether
that origin is one of the `typing` module's exports (`_typing_exports`
in the source). -/
inductive TypeExpr where
  | cls (name : String)
  | generic (origin : String) (typing_export : Bool)
deriving DecidableEq, Repr

/-- A Python runtime value, abstracted to the name of its class
(all the validators inspect about a value is its type). -/
structure PyValue where
  cls : String
deriving DecidableEq, Repr

/-- `_prepare_type_for_validation` from `utils.py`: a subscripted generic
whose origin is not a `typing` export (a user-made generic such as
`Component[Args, Kwargs]`) is resolved to its origin class; every other
annotation is returned unchanged. -/
def _prepare_type_for_validation (the_type : TypeExpr) : TypeExpr :=
  match the_type with
  | .generic origin typing_export =>
      if !typing_export then .cls origin else .generic origin typing_export
  | .cls n => .cls n

/-- The `TypeError`s raised by `validate_typed_tuple` / `validate_typed_dict`.
Each constructor carries the data that the source interpolates into the
corresponding f-string. -/
inductive TypeErr where
  | wrongCount (pfx : String) (expected : Nat) (actual : Nat) (kind : String)
  | tupleTypeMismatch (pfx : String) (kind : String) (index : Nat)
      (expected : TypeExpr) (got : PyValue)
  | missingKey (pfx : String) (kind : String) (key : String)
  | dictTypeMismatch (pfx : String) (kind : String) (key : String)
      (expected : TypeExpr) (got : PyValue)
  | unexpectedKeys (pfx : String) (kind : String) (keys : List String)
deriving DecidableEq, Repr

/-- Whether an error is one of the two per-value type-mismatch errors
(the checks guarded by `sys.version_info >= (3, 11)` in the source). -/
def TypeErr.isTypeMismatch : TypeErr → Bool
  | .tupleTypeMismatch _ _ _ _ _ => true
  | .dictTypeMismatch _ _ _ _ _ => true
  | _ => false

/-- The `tuple_type` argument of `validate_typed_tuple`: either `Any`
(the signal to skip validation) or a `Tuple[...]` alias whose `__args__`
are the member annotations. -/
inductive TupleType where
  | any
  | tuple (args : List TypeExpr)
deriving DecidableEq, Repr

/-- The `for index, arg_type in enumerate(tuple_type.__args__)` loop of
`validate_typed_tuple`.  `inst` is Python's `isinstance`; `ver311` is
`sys.version_info >= (3, 11)`; `index` is the enumeration counter. -/
def checkTupleArgs (inst : PyValue → TypeExpr → Bool) (ver311 : Bool)
    (value : List PyValue) (pfx : String) (kind : String) :
    List TypeExpr → Nat → Except TypeErr Unit
  | [], _ => .ok ()
  | arg_type :: rest, index =>
    let arg := value.getD index ⟨""⟩
    let arg_type2 := _prepare_type_for_validation arg_type
    if ver311 && !(inst arg arg_type2) then
      .error (.tupleTypeMismatch pfx kind index arg_type2 arg)
    else
      checkTupleArgs inst ver311 value pfx kind rest (index + 1)

/-- `validate_typed_tuple` from `utils.py`. -/
def validate_typed_tuple (inst : PyValue → TypeExpr → Bool) (ver311 : Bool)
    (value : List PyValue) (tuple_type : TupleType) (pfx : String)
    (kind : String) : Except TypeErr Unit :=
  match tuple_type with
  | .any => .ok ()
  | .tuple args =>
    let expected_pos_args := args.length
    let actual_pos_args := value.length
    if expected_pos_args > actual_pos_args then
      .error (.wrongCount pfx expected_pos_args actual_pos_args kind)
    else
      checkTupleArgs inst ver311 value pfx kind args 0

/-- First-match association-list lookup, modelling `value[key]` /
`key in value` on a Python mapping. -/
def alookup (value : List (String × PyValue)) (key : String) : Option PyValue :=
  match value with
  | [] => none
  | (k, v) :: rest => if k = key then some v else alookup rest key

/-- The `dict_type` argument of `validate_typed_dict`: either `Any` or a
`TypedDict` subclass with its `get_type_hints` entries (in declaration
order) and its `__required_keys__`. -/
inductive DictType where
  | any
  | typedDict (hints : List (String × TypeExpr)) (required : List String)
deriving DecidableEq, Repr

/-- The `for key, kwarg_type in get_type_hints(dict_type).items()` loop of
`validate_typed_dict`.  `unseen` is the mutable `unseen_keys` set,
modelled as the list of keys of `value` not yet removed; on success the
loop returns its final state. -/
def dictLoop (inst : PyValue → TypeExpr → Bool) (ver311 : Bool)
    (value : List (String × PyValue)) (pfx : String) (kind : String)
    (required : List String) :
    List (String × TypeExpr) → List String → Except TypeErr (List String)
  | [], unseen => .ok unseen
  | (key, kwarg_type) :: rest, unseen =>
    match alookup value key with
    | none =>
      if key ∈ required then
        .error (.missingKey pfx kind key)
      else
        dictLoop inst ver311 value pfx kind required rest unseen
    | some kwarg =>
      let kwarg_type2 := _prepare_type_for_validation kwarg_type
      if ver311 && !(inst kwarg kwarg_type2) then
        .error (.dictTypeMismatch pfx kind key kwarg_type2 kwarg)
      else
        dictLoop inst ver311 value pfx kind required rest (unseen.erase key)

/-- `validate_typed_dict` from `utils.py`. -/
def validate_typed_dict (inst : PyValue → TypeExpr → Bool) (ver311 : Bool)
    (value : List (String × PyValue)) (dict_type : DictType) (pfx : String)
    (kind : String) : Except TypeErr Unit :=
  match dict_type with
  | .any => .ok ()
  | .typedDict hints required =>
    match dictLoop inst ver311 value pfx kind required hints
        (value.map Prod.fst) with
    | .error e => .error e
    | .ok unseen_keys =>
      if unseen_keys.isEmpty then .ok ()
      else .error (.unexpectedKeys pfx kind unseen_keys)

/-- A concrete `isinstance` model used to evaluate the validators on
concrete inputs: a value is an instance of a class iff the names match
(a generic is compared through its origin). -/
def instByClass (v : PyValue) (t : TypeExpr) : Bool :=
  match t with
  | .cls c => v.cls = c
  | .generic o _ => v.cls = o

/-! ## Embedding of `escape_js_string_literal` -/

/-- The double-quote character. -/
def quoteChar : Char := Char.ofNat 34

/-- The single-quote (apostrophe) character. -/
def aposChar : Char := Char.ofNat 39

/-- The backtick character. -/
def backtickChar : Char := Char.ofNat 96

/-- Django's `escape` (via `django.template.defaultfilters`), i.e. a
character-wise translation of `&`, `<`, `>`, double quote and single quote
into their HTML entities.  Applied character by character, like Python's
`str.translate` / `html.escape`. -/
def htmlTranslateChar (c : Char) : List Char :=
  if c = '&' then "&amp;".toList
  else if c = '<' then "&lt;".toList
  else if c = '>' then "&gt;".toList
  else if c = quoteChar then "&quot;".toList
  else if c = aposChar then "&#x27;".toList
  else [c]

/-- Django's `escape` on a whole string. -/
def escape (s : List Char) : List Char := s.flatMap htmlTranslateChar

/-- Membership test for the regex `\\|`|\$`
(`JS_STRING_LITERAL_SPECIAL_CHARS_REGEX` in the source): true exactly on
backslash, backtick and dollar sign. -/
def isJsSpecialChar (c : Char) : Bool :=
  c = '\\' || c = backtickChar || c = '$'

/-- `re.sub` with the pattern `\\|`|\$` and the replacement
`on_replace_match` (which prepends a backslash to the matched character):
a left-to-right scan; every alternative of the pattern is a single
character, so each match consumes one character. -/
def subJsSpecialChars : List Char → List Char
  | [] => []
  | c :: rest =>
    if isJsSpecialChar c then '\\' :: c :: subJsSpecialChars rest
    else c :: subJsSpecialChars rest

/-- `escape_js_string_literal` from `utils.py`: Django-escape the string,
then run the regex substitution over the escaped text. -/
def escape_js_string_literal (js : List Char) : List Char :=
  subJsSpecialChars (escape js)

/-- The per-character replacement described by the spec: a special
character becomes backslash-then-itself, anything else is kept as is. -/
def jsEscapeSpecChar (c : Char) : List Char :=
  if isJsSpecialChar c then ['\\', c] else [c]

/-- The regex substitution acts character by character. -/
theorem subJsSpecialChars_eq_flatMap (l : List Char) :
    subJsSpecialChars l = l.flatMap jsEscapeSpecChar := by
  induction l with
  | nil => rfl
  | cons c rest ih =>
    by_cases h : isJsSpecialChar c = true <;>
      simp [subJsSpecialChars, jsEscapeSpecChar, h, ih]

/-! ## Embedding of `lazy_cache` -/

/-- The closure state of one `lazy_cache`-decorated function.  `cached_fn`
is the nonlocal `_cached_fn` (`none` models Python `None`; the stored
cached-function object is always truthy, so `if not _cached_fn` is
equivalent to `_cached_fn is None`).  A constructed cache is identified by
the ordinal of the `make_cache()` invocation that built it;
`make_cache_calls` counts those invocations. -/
structure LazyCacheState where
  cached_fn : Option Nat
  make_cache_calls : Nat
deriving DecidableEq, Repr

/-- The state right after `lazy_cache` decorates a function:
`_cached_fn = None` and `make_cache` has not been invoked. -/
def lazy_cache_init : LazyCacheState := ⟨none, 0⟩

/-- One call of the wrapped function: when no cache is stored, invoke
`make_cache()` and store the freshly wrapped function; otherwise use the
stored one.  Returns the new state together with the identifier of the
cache that served the call. -/
def lazy_cache_call (s : LazyCacheState) : LazyCacheState × Nat :=
  match s.cached_fn with
  | none =>
    let calls := s.make_cache_calls + 1
    (⟨some calls, calls⟩, calls)
  | some c => (s, c)

/-- `cache_remove` from the source: reset `_cached_fn` to `None`. -/
def cache_remove (s : LazyCacheState) : LazyCacheState :=
  ⟨none, s.make_cache_calls⟩

/-! ## Embedding of `search_dirs` -/

/-- `Path(directory) / search_glob`: joining the base directory with the
glob pattern. -/
def pathJoin (directory : String) (search_glob : String) : String :=
  directory ++ "/" ++ search_glob

/-- The `for directory in dirs` loop of `search_dirs`, accumulating into
`matched_files`.  `iglob` abstracts `glob.iglob(..., recursive=True)`:
the list of matches the filesystem yields for a pattern string. -/
def searchDirsLoop (iglob : String → List String) (search_glob : String) :
    List String → List String → List String
  | [], matched_files => matched_files
  | directory :: rest, matched_files =>
    searchDirsLoop iglob search_glob rest
      (matched_files ++ iglob (pathJoin directory search_glob))

/-- `search_dirs` from `utils.py`. -/
def search_dirs (iglob : String → List String) (dirs : List String)
    (search_glob : String) : List String :=
  searchDirsLoop iglob search_glob dirs []

/-- Accumulator lemma: the loop appends its results after the
already-matched files. -/
theorem searchDirsLoop_acc (iglob : String → List String) (g : String)
    (ds : List String) (acc : List String) :
    searchDirsLoop iglob g ds acc = acc ++ searchDirsLoop iglob g ds [] := by
  induction ds generalizing acc with
  | nil => simp [searchDirsLoop]
  | cons d rest ih =>
    simp only [searchDirsLoop, List.nil_append]
    rw [ih, ih (iglob (pathJoin d g)), List.append_assoc]

/-- `search_dirs` flattens the per-directory glob results in order. -/
theorem search_dirs_eq_flatMap (iglob : String → List String)
    (ds : List String) (g : String) :
    search_dirs iglob ds g = ds.flatMap (fun d => iglob (pathJoin d g)) := by
  induction ds with
  | nil => rfl
  | cons d rest ih =>
    simp only [search_dirs, searchDirsLoop, List.nil_append] at *
    rw [searchDirsLoop_acc, ih, List.flatMap_cons]

/-! ## Embedding of `gen_id` -/

/-- The alphabet literal of `gen_id` in `utils.py`. -/
def GEN_ID_ALPHABET : List Char :=
  "0123456789abcdefghijklmnopqrstuvwxyzABCDEFGHIJKLMNOPQRSTUVWXYZ".toList

/-- Modelled from the spec: the nanoid-based `generate` helper
(`django_components/util/nanoid.py`, which is not under `src/`) — "produce
a short alphanumeric string (fixed alphabet, fixed length)": a string of
exactly `size` characters, each drawn from `alphabet` at a randomly chosen
index.  Randomness is made explicit as a stream `randomIdx` of natural
numbers; the index into the alphabet is the stream value reduced modulo
the alphabet size. -/
def generate (alphabet : List Char) (size : Nat) (randomIdx : Nat → Nat) :
    List Char :=
  (List.range size).map
    (fun i => alphabet.getD (randomIdx i % alphabet.length) ' ')

/-- `gen_id` from `utils.py`: `generate` with the 62-character
alphanumeric alphabet and size 6. -/
def gen_id (randomIdx : Nat → Nat) : List Char :=
  generate GEN_ID_ALPHABET 6 randomIdx

/-! ## Embedding of the component-directory loader (spec-modelled) -/

/-- An entry of the explicit directory configuration (`COMPONENTS.dirs`,
with `STATICFILES_DIRS` sharing the shape): a bare path, an aliased
`(alias, path)` tuple, or a malformed entry whose path member is not a
string or `Path` (recorded by the printed type and value of that member,
as in the logged warning `Got <class 'int'> : 3` asserted by
`tests/test_loader.py`). -/
inductive DirsEntry where
  | plain (p : String)
  | aliased (a : String) (p : String)
  | malformed (typeRepr : String) (valueRepr : String)
deriving DecidableEq, Repr

/-- The path member of a well-formed configuration entry. -/
def DirsEntry.path : DirsEntry → Option String
  | .plain p => some p
  | .aliased _ p => some p
  | .malformed _ _ => none

/-- The warning logged for a malformed entry; `none` for well-formed
entries. -/
def DirsEntry.warning : DirsEntry → Option String
  | .malformed t v => some ("Got " ++ t ++ " : " ++ v)
  | .plain _ => none
  | .aliased _ _ => none

/-- Whether a path string is absolute (starts with the path separator). -/
def isAbsolutePath (p : String) : Bool :=
  match p.data with
  | [] => false
  | c :: _ => c = '/'

/-- The error message raised for a relative configured path, as asserted
by `tests/test_loader.py`. -/
def relativePathError (p : String) : String :=
  "COMPONENTS.dirs must contain absolute paths. Got: " ++ p

/-- Modelled from the spec: the configuration-processing part of
`get_component_dirs` (`django_components/util/loader.py`, not under
`src/`).  Per the spec it requires absolute paths — "relative paths
rejected with an error" — and it "warn[s] but continue[s] on malformed
entries".  Each well-formed entry contributes its path, in order; each
malformed entry contributes a warning and is skipped; the first relative
path aborts with an error. -/
def processDirsEntries :
    List DirsEntry → Except String (List String × List String)
  | [] => .ok ([], [])
  | .plain p :: rest =>
    if isAbsolutePath p then
      match processDirsEntries rest with
      | .error e => .error e
      | .ok (ds, ws) => .ok (p :: ds, ws)
    else .error (relativePathError p)
  | .aliased _ p :: rest =>
    if isAbsolutePath p then
      match processDirsEntries rest with
      | .error e => .error e
      | .ok (ds, ws) => .ok (p :: ds, ws)
    else .error (relativePathError p)
  | .malformed t v :: rest =>
    match processDirsEntries rest with
    | .error e => .error e
    | .ok (ds, ws) => .ok (ds, ("Got " ++ t ++ " : " ++ v) :: ws)

/-- The directory list together with the warnings logged while building
it. -/
structure ComponentDirsResult where
  dirs : List String
  warnings : List String
deriving DecidableEq, Repr

/-- Modelled from the spec: `get_component_dirs`
(`django_components/util/loader.py`, not under `src/`) — "construct
directory lists by combining a framework-level discovery mechanism with
explicit directory configuration".  `app_dirs` are the
framework-discovered component directories; `configured` is the explicit
configuration. -/
def get_component_dirs (app_dirs : List String)
    (configured : List DirsEntry) : Except String ComponentDirsResult :=
  match processDirsEntries configured with
  | .error e => .error e
  | .ok (ds, ws) => .ok ⟨app_dirs ++ ds, ws⟩

/-! ## Theorems: claim C10 -/

/-- C10: passing `Any` as the type specification makes validation a no-op:
both `validate_typed_tuple` and `validate_typed_dict` return immediately
without raising, for every value, `isinstance` behaviour, runtime version,
prefix and kind. -/
theorem validate_any_is_noop
    (inst : PyValue → TypeExpr → Bool) (ver311 : Bool)
    (tvalue : List PyValue) (dvalue : List (String × PyValue))
    (pfx kind : String) :
    validate_typed_tuple inst ver311 tvalue .any pfx kind = .ok () ∧
    validate_typed_dict inst ver311 dvalue .any pfx kind = .ok () := by
  constructor <;> rfl

/-! ## Theorems: claim C1 -/

/-- C1 (evaluation at the failing input): `validate_typed_tuple` accepts a
two-element value against a one-member tuple specification without raising
(first conjunct: the extra element is silently ignored, contradicting both
the spec and the source's own comment that extra positional args are
checked), while a value with fewer elements than declared is rejected with
the count error (second conjunct), and equal lengths raise no count error
(third conjunct). -/
theorem validate_typed_tuple_ignores_extra_args :
    validate_typed_tuple instByClass true [⟨"int"⟩, ⟨"int"⟩]
      (.tuple [.cls "int"]) "Component 'test'" "positional argument"
      = .ok () ∧
    validate_typed_tuple instByClass true [⟨"int"⟩]
      (.tuple [.cls "int", .cls "int"]) "Component 'test'"
      "positional argument"
      = .error (.wrongCount "Component 'test'" 2 1 "positional argument") ∧
    validate_typed_tuple instByClass true [⟨"int"⟩]
      (.tuple [.cls "int"]) "Component 'test'" "positional argument"
      = .ok () := by
  refine ⟨?_, ?_, ?_⟩ <;> rfl

/-! ## Theorems: claim C4 -/

/-- C4: `escape_js_string_literal` is HTML escaping followed by the
character-wise replacement that prepends a backslash to every backslash,
backtick and dollar sign of the HTML-escaped text; and that second step
leaves every other character unchanged. -/
theorem escape_js_string_literal_spec (js : List Char) :
    escape_js_string_literal js = (escape js).flatMap jsEscapeSpecChar ∧
    (∀ c : Char, isJsSpecialChar c = false → jsEscapeSpecChar c = [c]) := by
  refine ⟨subJsSpecialChars_eq_flatMap (escape js), ?_⟩
  intro c hc
  simp [jsEscapeSpecChar, hc]

/-- C4 witness: the theorem evaluated on the concrete string "a$<b"
(whose HTML escape is "a$&lt;b") and on the ordinary character 'a'. -/
theorem escape_js_string_literal_spec_witness :
    escape_js_string_literal "a$<b".toList
      = (escape "a$<b".toList).flatMap jsEscapeSpecChar ∧
    jsEscapeSpecChar 'a' = ['a'] :=
  ⟨(escape_js_string_literal_spec "a$<b".toList).1,
   (escape_js_string_literal_spec "a$<b".toList).2 'a' (by decide)⟩

/-! ## Theorems: claim C5 -/

/-- C5: `make_cache` is not invoked at decoration time (first conjunct);
the first call invokes it exactly once and stores the constructed cache
(second conjunct); a call in a state that already holds a cache reuses
that cache and constructs nothing (third conjunct); `cache_remove` resets
the stored cache and the next call constructs a fresh one, with exactly
one further `make_cache` invocation (fourth conjunct). -/
theorem lazy_cache_lazy_single_construction :
    lazy_cache_init.make_cache_calls = 0 ∧
    lazy_cache_call lazy_cache_init = (⟨some 1, 1⟩, 1) ∧
    (∀ (s : LazyCacheState) (c : Nat), s.cached_fn = some c →
      lazy_cache_call s = (s, c)) ∧
    (∀ s : LazyCacheState,
      (cache_remove s).cached_fn = none ∧
      lazy_cache_call (cache_remove s)
        = (⟨some (s.make_cache_calls + 1), s.make_cache_calls + 1⟩,
           s.make_cache_calls + 1)) := by
  refine ⟨rfl, rfl, ?_, ?_⟩
  · intro s c hc
    simp [lazy_cache_call, hc]
  · intro s
    exact ⟨rfl, rfl⟩

/-- C5 witness: a state holding cache number 1 after one call serves a
second call from the same cache without a new construction. -/
theorem lazy_cache_lazy_single_construction_witness :
    lazy_cache_call ⟨some 1, 1⟩ = (⟨some 1, 1⟩, 1) :=
  lazy_cache_lazy_single_construction.2.2.1 ⟨some 1, 1⟩ 1 rfl

/-! ## Theorems: claim C6 -/

/-- C6: `search_dirs` returns the in-order concatenation of the glob
matches under each directory: it maps a concatenation of directory lists
to the concatenation of the results, the empty directory list to the empty
result, and in general equals the flattened per-directory glob results. -/
theorem search_dirs_concat (iglob : String → List String)
    (d1 d2 : List String) (g : String) :
    search_dirs iglob (d1 ++ d2) g
      = search_dirs iglob d1 g ++ search_dirs iglob d2 g ∧
    search_dirs iglob [] g = [] ∧
    search_dirs iglob d1 g = d1.flatMap (fun d => iglob (pathJoin d g)) := by
  refine ⟨?_, rfl, search_dirs_eq_flatMap iglob d1 g⟩
  rw [search_dirs_eq_flatMap, search_dirs_eq_flatMap, search_dirs_eq_flatMap,
    List.flatMap_append]

/-! ## Theorems: claim C9 -/

/-- C9: the alphabet of `gen_id` has exactly 62 characters; every string
`gen_id` returns has length exactly 6, and each of its characters is in
the alphabet, is alphanumeric (a digit, a lowercase or an uppercase
letter), and is neither the dash nor the underscore character. -/
theorem gen_id_len_and_alphabet (randomIdx : Nat → Nat) :
    GEN_ID_ALPHABET.length = 62 ∧
    (gen_id randomIdx).length = 6 ∧
    ∀ c ∈ gen_id randomIdx,
      c ∈ GEN_ID_ALPHABET ∧ (c.isDigit ∨ c.isLower ∨ c.isUpper) ∧
      c ≠ '-' ∧ c ≠ '_' := by
  refine ⟨rfl, by simp [gen_id, generate], ?_⟩
  intro c hc
  have hmem : c ∈ GEN_ID_ALPHABET := by
    simp only [gen_id, generate, List.mem_map] at hc
    obtain ⟨i, -, hi⟩ := hc
    have hlt : randomIdx i % GEN_ID_ALPHABET.length < GEN_ID_ALPHABET.length :=
      Nat.mod_lt _ (by decide)
    rw [← hi, List.getD_eq_getElem GEN_ID_ALPHABET ' ' hlt]
    exact List.getElem_mem hlt
  have hprops : ∀ c ∈ GEN_ID_ALPHABET,
      (c.isDigit ∨ c.isLower ∨ c.isUpper) ∧ c ≠ '-' ∧ c ≠ '_' := by decide
  exact ⟨hmem, hprops c hmem⟩

/-- C9 witness: with the constant-zero random stream, `gen_id` yields the
string "000000", whose first character witnesses the theorem. -/
theorem gen_id_len_and_alphabet_witness :
    ('0' ∈ gen_id (fun _ => 0)) ∧ '0' ∈ GEN_ID_ALPHABET :=
  ⟨by decide,
   ((gen_id_len_and_alphabet (fun _ => 0)).2.2 '0' (by decide)).1⟩

/-! ## Theorems: claims C7 and C8 -/

/-- With a relative configured path present, `processDirsEntries`
aborts with the absolute-paths error. -/
theorem processDirsEntries_error_of_relative (configured : List DirsEntry)
    (h : ∃ e ∈ configured, ∃ p, DirsEntry.path e = some p ∧
      isAbsolutePath p = false) :
    ∃ p, processDirsEntries configured = .error (relativePathError p) ∧
      isAbsolutePath p = false := by
  induction configured with
  | nil => simp at h
  | cons e rest ih =>
    obtain ⟨e0, he0, p0, hpath, habs⟩ := h
    have hrest : e0 ∈ rest →
        ∃ p, processDirsEntries rest = .error (relativePathError p) ∧
          isAbsolutePath p = false :=
      fun hmem => ih ⟨e0, hmem, p0, hpath, habs⟩
    cases e with
    | plain p =>
      by_cases hab : isAbsolutePath p
      · rcases List.mem_cons.mp he0 with heq | hmem
        · subst heq
          simp only [DirsEntry.path, Option.some.injEq] at hpath
          subst hpath
          simp [hab] at habs
        · obtain ⟨p', hp', habs'⟩ := hrest hmem
          exact ⟨p', by simp [processDirsEntries, hab, hp'], habs'⟩
      · exact ⟨p, by simp [processDirsEntries, hab],
          Bool.not_eq_true _ ▸ Bool.of_not_eq_true hab⟩
    | aliased a p =>
      by_cases hab : isAbsolutePath p
      · rcases List.mem_cons.mp he0 with heq | hmem
        · subst heq
          simp only [DirsEntry.path, Option.some.injEq] at hpath
          subst hpath
          simp [hab] at habs
        · obtain ⟨p', hp', habs'⟩ := hrest hmem
          exact ⟨p', by simp [processDirsEntries, hab, hp'], habs'⟩
      · exact ⟨p, by simp [processDirsEntries, hab],
          Bool.not_eq_true _ ▸ Bool.of_not_eq_true hab⟩
    | malformed t v =>
      rcases List.mem_cons.mp he0 with heq | hmem
      · subst heq
        simp [DirsEntry.path] at hpath
      · obtain ⟨p', hp', habs'⟩ := hrest hmem
        exact ⟨p', by simp [processDirsEntries, hp'], habs'⟩

/-- C7: when the explicit directory configuration contains a relative
path — as a bare path entry or as the path member of an aliased tuple —
`get_component_dirs` raises the error stating that absolute paths are
required, rather than returning a directory list. -/
theorem get_component_dirs_rejects_relative (app_dirs : List String)
    (configured : List DirsEntry)
    (h : ∃ e ∈ configured, ∃ p, DirsEntry.path e = some p ∧
      isAbsolutePath p = false) :
    ∃ p, get_component_dirs app_dirs configured
      = .error (relativePathError p) ∧ isAbsolutePath p = false := by
  obtain ⟨p, hp, habs⟩ := processDirsEntries_error_of_relative configured h
  exact ⟨p, by simp [get_component_dirs, hp], habs⟩

/-- C7 witness: the configuration of
`test_get_dirs__componenents_dirs__raises_on_relative_path_1`, the single
relative entry `"components"`, makes `get_component_dirs` raise. -/
theorem get_component_dirs_rejects_relative_witness :
    ∃ p, get_component_dirs ["/app/components"] [.plain "components"]
      = .error (relativePathError p) ∧ isAbsolutePath p = false :=
  get_component_dirs_rejects_relative ["/app/components"]
    [.plain "components"]
    ⟨.plain "components", List.mem_singleton.mpr rfl, "components",
      rfl, rfl⟩

/-- With every configured path absolute, `processDirsEntries` succeeds,
keeping the well-formed paths in order and producing one warning per
malformed entry. -/
theorem processDirsEntries_ok_of_absolute (configured : List DirsEntry)
    (h : ∀ e ∈ configured, ∀ p, DirsEntry.path e = some p →
      isAbsolutePath p = true) :
    processDirsEntries configured
      = .ok (configured.filterMap DirsEntry.path,
             configured.filterMap DirsEntry.warning) := by
  induction configured with
  | nil => rfl
  | cons e rest ih =>
    have hrest := ih (fun a ha => h a (List.mem_cons_of_mem e ha))
    cases e with
    | plain p =>
      have hab : isAbsolutePath p = true :=
        h (.plain p) (List.mem_cons_self _ _) p rfl
      simp [processDirsEntries, hab, hrest, List.filterMap_cons,
        DirsEntry.path, DirsEntry.warning]
    | aliased a p =>
      have hab : isAbsolutePath p = true :=
        h (.aliased a p) (List.mem_cons_self _ _) p rfl
      simp [processDirsEntries, hab, hrest, List.filterMap_cons,
        DirsEntry.path, DirsEntry.warning]
    | malformed t v =>
      simp [processDirsEntries, hrest, List.filterMap_cons,
        DirsEntry.path, DirsEntry.warning]

/-- C8: when every well-formed configured path is absolute,
`get_component_dirs` does not raise, even in the presence of malformed
entries: it returns the framework directories followed by the paths of
the well-formed entries (malformed entries are skipped), and logs exactly
one warning per malformed entry. -/
theorem get_component_dirs_skips_malformed (app_dirs : List String)
    (configured : List DirsEntry)
    (h : ∀ e ∈ configured, ∀ p, DirsEntry.path e = some p →
      isAbsolutePath p = true) :
    get_component_dirs app_dirs configured
      = .ok ⟨app_dirs ++ configured.filterMap DirsEntry.path,
             configured.filterMap DirsEntry.warning⟩ := by
  simp [get_component_dirs, processDirsEntries_ok_of_absolute configured h]

/-- C8 witness: the configuration of `test_get_dirs__components_dirs` —
an absolute path, an aliased absolute path and a malformed entry with a
non-string path member — yields the well-formed directories and the
warning `Got <class 'int'> : 3`, without raising. -/
theorem get_component_dirs_skips_malformed_witness :
    get_component_dirs ["/app/components"]
      [.plain "/tests/components",
       .aliased "with_alias" "/tests/components",
       .malformed "<class 'int'>" "3"]
      = .ok ⟨["/app/components", "/tests/components", "/tests/components"],
             ["Got <class 'int'> : 3"]⟩ :=
  get_component_dirs_skips_malformed ["/app/components"]
    [.plain "/tests/components",
     .aliased "with_alias" "/tests/components",
     .malformed "<class 'int'>" "3"]
    (by decide)

/-! ## Theorems: claim C2 -/

/-- `key in value` agrees with membership among the mapping's keys. -/
theorem alookup_isSome_iff (value : List (String × PyValue)) (k : String) :
    (alookup value k).isSome = true ↔ k ∈ value.map Prod.fst := by
  induction value with
  | nil => simp [alookup]
  | cons kv rest ih =>
    obtain ⟨k0, v0⟩ := kv
    by_cases h : k0 = k
    · subst h
      simp [alookup]
    · simp [alookup, h, ih, Ne.symm h]

/-- Every hinted value present in the mapping passes its `isinstance`
check (after `_prepare_type_for_validation`).  Under this hypothesis the
per-value type checks of `validate_typed_dict` cannot fire, isolating the
key-presence logic. -/
def WellTypedPresent (inst : PyValue → TypeExpr → Bool)
    (value : List (String × PyValue)) (hs : List (String × TypeExpr)) :
    Prop :=
  ∀ kt ∈ hs, ∀ v, alookup value kt.1 = some v →
    inst v (_prepare_type_for_validation kt.2) = true

/-- The effect of the `unseen_keys.remove(key)` calls of the loop: erase
from `unseen` each hinted key that is present in the mapping, in hint
order. -/
def eraseSeen (value : List (String × PyValue)) :
    List (String × TypeExpr) → List String → List String
  | [], unseen => unseen
  | (key, _) :: rest, unseen =>
    if (alookup value key).isSome then eraseSeen value rest (unseen.erase key)
    else eraseSeen value rest unseen

/-- When some hinted required key is absent from the mapping and all
present hinted values are well typed, the loop raises the
missing-required-key error (for such a key). -/
theorem dictLoop_missing_required (inst : PyValue → TypeExpr → Bool)
    (ver311 : Bool) (value : List (String × PyValue)) (pfx kind : String)
    (required : List String) (hs : List (String × TypeExpr))
    (unseen : List String) (hwt : WellTypedPresent inst value hs)
    (h : ∃ k ∈ hs.map Prod.fst, k ∈ required ∧ alookup value k = none) :
    ∃ k, k ∈ required ∧ alookup value k = none ∧
      dictLoop inst ver311 value pfx kind required hs unseen
        = .error (.missingKey pfx kind k) := by
  induction hs generalizing unseen with
  | nil => simp at h
  | cons kt rest ih =>
    obtain ⟨key, ktype⟩ := kt
    have hwt_rest : WellTypedPresent inst value rest :=
      fun a ha => hwt a (List.mem_cons_of_mem _ ha)
    obtain ⟨k0, hk0mem, hk0req, hk0none⟩ := h
    cases hcase : alookup value key with
    | none =>
      by_cases hreq : key ∈ required
      · exact ⟨key, hreq, hcase, by simp [dictLoop, hcase, hreq]⟩
      · have hk0rest : k0 ∈ rest.map Prod.fst := by
          rcases (by simpa using hk0mem : k0 = key ∨ k0 ∈ rest.map Prod.fst)
            with heq | hmem
          · subst heq
            exact absurd hk0req hreq
          · exact hmem
        obtain ⟨k, h1, h2, h3⟩ :=
          ih unseen hwt_rest ⟨k0, hk0rest, hk0req, hk0none⟩
        exact ⟨k, h1, h2, by simp [dictLoop, hcase, hreq, h3]⟩
    | some v =>
      have hinst := hwt (key, ktype) (List.mem_cons_self _ _) v hcase
      have hk0rest : k0 ∈ rest.map Prod.fst := by
        rcases (by simpa using hk0mem : k0 = key ∨ k0 ∈ rest.map Prod.fst)
          with heq | hmem
        · subst heq
          rw [hk0none] at hcase
          cases hcase
        · exact hmem
      obtain ⟨k, h1, h2, h3⟩ :=
        ih (unseen.erase key) hwt_rest ⟨k0, hk0rest, hk0req, hk0none⟩
      exact ⟨k, h1, h2, by simp [dictLoop, hcase, hinst, h3]⟩

/-- When every hinted required key is present and all present hinted
values are well typed, the loop succeeds and returns `unseen` with the
present hinted keys removed. -/
theorem dictLoop_ok (inst : PyValue → TypeExpr → Bool) (ver311 : Bool)
    (value : List (String × PyValue)) (pfx kind : String)
    (required : List String) (hs : List (String × TypeExpr))
    (unseen : List String) (hwt : WellTypedPresent inst value hs)
    (hpres : ∀ k ∈ hs.map Prod.fst, k ∈ required →
      (alookup value k).isSome = true) :
    dictLoop inst ver311 value pfx kind required hs unseen
      = .ok (eraseSeen value hs unseen) := by
  induction hs generalizing unseen with
  | nil => rfl
  | cons kt rest ih =>
    obtain ⟨key, ktype⟩ := kt
    have hwt_rest : WellTypedPresent inst value rest :=
      fun a ha => hwt a (List.mem_cons_of_mem _ ha)
    have hpres_rest : ∀ k ∈ rest.map Prod.fst, k ∈ required →
        (alookup value k).isSome = true :=
      fun k hk => hpres k (by simp [hk])
    cases hcase : alookup value key with
    | none =>
      have hreq : key ∉ required := by
        intro hin
        have := hpres key (by simp) hin
        rw [hcase] at this
        cases this
      simp [dictLoop, hcase, hreq, eraseSeen, ih unseen hwt_rest hpres_rest]
    | some v =>
      have hinst := hwt (key, ktype) (List.mem_cons_self _ _) v hcase
      simp [dictLoop, hcase, hinst, eraseSeen,
        ih (unseen.erase key) hwt_rest hpres_rest]

/-- Removing the present hinted keys from a duplicate-free list of keys
that are all present is filtering out the hinted keys. -/
theorem eraseSeen_eq_filter (value : List (String × PyValue))
    (hs : List (String × TypeExpr)) (unseen : List String)
    (hnd : unseen.Nodup)
    (hpres : ∀ k ∈ unseen, (alookup value k).isSome = true) :
    eraseSeen value hs unseen
      = unseen.filter (fun k => !(hs.map Prod.fst).contains k) := by
  induction hs generalizing unseen with
  | nil =>
    simp [eraseSeen]
  | cons kt rest ih =>
    obtain ⟨key, ktype⟩ := kt
    cases hcase : (alookup value key).isSome with
    | true =>
      rw [eraseSeen, if_pos hcase,
        ih (unseen.erase key) (hnd.erase key)
          (fun k hk => hpres k (List.mem_of_mem_erase hk)),
        hnd.erase_eq_filter key, List.filter_filter]
      refine List.filter_congr ?_
      intro x hx
      by_cases hxk : x = key
      · subst hxk
        simp
      · simp [hxk, bne, Bool.and_comm]
    | false =>
      rw [eraseSeen, if_neg (by simp [hcase]), ih unseen hnd hpres]
      refine List.filter_congr ?_
      intro x hx
      have hxk : x ≠ key := by
        intro he
        subst he
        rw [hpres x hx] at hcase
        cases hcase
      simp [hxk]

/-- C2: with all present hinted values passing their type checks (the
separately claimed per-value validation, isolated away by `hwt`) and the
specification well formed (required keys are hinted, mapping keys are
duplicate-free), `validate_typed_dict` raises the missing-key `TypeError`
naming an absent required key whenever one exists (first conjunct);
raises the unexpected-keys `TypeError` listing exactly the unhinted keys
whenever all required keys are present but some key is unhinted (second
conjunct); and raises neither — it succeeds — when all required keys are
present and every key is hinted (third conjunct). -/
theorem validate_typed_dict_key_presence (inst : PyValue → TypeExpr → Bool)
    (ver311 : Bool) (value : List (String × PyValue))
    (hints : List (String × TypeExpr)) (required : List String)
    (pfx kind : String)
    (hreq : ∀ k ∈ required, k ∈ hints.map Prod.fst)
    (hnd : (value.map Prod.fst).Nodup)
    (hwt : WellTypedPresent inst value hints) :
    ((∃ k ∈ required, k ∉ value.map Prod.fst) →
      ∃ k, k ∈ required ∧ k ∉ value.map Prod.fst ∧
        validate_typed_dict inst ver311 value (.typedDict hints required)
          pfx kind = .error (.missingKey pfx kind k)) ∧
    ((∀ k ∈ required, k ∈ value.map Prod.fst) →
      (∃ k ∈ value.map Prod.fst, k ∉ hints.map Prod.fst) →
      validate_typed_dict inst ver311 value (.typedDict hints required)
        pfx kind
        = .error (.unexpectedKeys pfx kind
            ((value.map Prod.fst).filter
              (fun k => !(hints.map Prod.fst).contains k)))) ∧
    ((∀ k ∈ required, k ∈ value.map Prod.fst) →
      (∀ k ∈ value.map Prod.fst, k ∈ hints.map Prod.fst) →
      validate_typed_dict inst ver311 value (.typedDict hints required)
        pfx kind = .ok ()) := by
  have hlookup_none : ∀ k : String, k ∉ value.map Prod.fst →
      alookup value k = none := by
    intro k hk
    cases hcase : alookup value k with
    | none => rfl
    | some v =>
      exact absurd ((alookup_isSome_iff value k).mp (by simp [hcase])) hk
  refine ⟨?_, ?_, ?_⟩
  · intro ⟨k0, hk0req, hk0absent⟩
    obtain ⟨k, h1, h2, h3⟩ :=
      dictLoop_missing_required inst ver311 value pfx kind required hints
        (value.map Prod.fst) hwt
        ⟨k0, hreq k0 hk0req, hk0req, hlookup_none k0 hk0absent⟩
    refine ⟨k, h1, ?_, by simp [validate_typed_dict, h3]⟩
    intro hmem
    have hsome := (alookup_isSome_iff value k).mpr hmem
    rw [h2] at hsome
    cases hsome
  · intro hallreq ⟨k0, hk0mem, hk0unhinted⟩
    have hpres : ∀ k ∈ hints.map Prod.fst, k ∈ required →
        (alookup value k).isSome = true :=
      fun k _ hkreq => (alookup_isSome_iff value k).mpr (hallreq k hkreq)
    have hloop := dictLoop_ok inst ver311 value pfx kind required hints
      (value.map Prod.fst) hwt hpres
    have hfinal := eraseSeen_eq_filter value hints (value.map Prod.fst) hnd
      (fun k hk => (alookup_isSome_iff value k).mpr hk)
    have hne : (value.map Prod.fst).filter
        (fun k => !(hints.map Prod.fst).contains k) ≠ [] := by
      intro hempty
      have : k0 ∈ (value.map Prod.fst).filter
          (fun k => !(hints.map Prod.fst).contains k) := by
        simp only [List.mem_filter]
        exact ⟨hk0mem, by simp [hk0unhinted]⟩
      rw [hempty] at this
      cases this
    simp only [validate_typed_dict, hloop, hfinal]
    rw [if_neg (by rw [List.isEmpty_iff]; exact hne)]
  · intro hallreq hallhinted
    have hpres : ∀ k ∈ hints.map Prod.fst, k ∈ required →
        (alookup value k).isSome = true :=
      fun k _ hkreq => (alookup_isSome_iff value k).mpr (hallreq k hkreq)
    have hloop := dictLoop_ok inst ver311 value pfx kind required hints
      (value.map Prod.fst) hwt hpres
    have hfinal := eraseSeen_eq_filter value hints (value.map Prod.fst) hnd
      (fun k hk => (alookup_isSome_iff value k).mpr hk)
    have hnil : (value.map Prod.fst).filter
        (fun k => !(hints.map Prod.fst).contains k) = [] := by
      rw [List.filter_eq_nil_iff]
      intro k hk
      simp [hallhinted k hk]
    simp only [validate_typed_dict, hloop, hfinal, hnil]
    rfl

/-- C2 witness: the specification `{a : int}` with `a` required, checked
against the well-typed mapping `{a: int-value}`, raises nothing. -/
theorem validate_typed_dict_key_presence_witness :
    validate_typed_dict instByClass true [("a", ⟨"int"⟩)]
      (.typedDict [("a", .cls "int")] ["a"]) "Component 'test'"
      "keyword argument" = .ok () :=
  (validate_typed_dict_key_presence instByClass true [("a", ⟨"int"⟩)]
      [("a", .cls "int")] ["a"] "Component 'test'" "keyword argument"
      (by decide) (by decide)
      (by
        intro kt hkt v hv
        rw [List.mem_singleton] at hkt
        subst hkt
        simp [alookup] at hv
        subst hv
        decide)).2.2
    (by decide) (by decide)

/-! ## Theorems: claim C3 -/

/-- With the 3.11+ check active, the positional-argument loop raises a
type-mismatch error at an offending index whenever one exists. -/
theorem checkTupleArgs_mismatch (inst : PyValue → TypeExpr → Bool)
    (value : List PyValue) (pfx kind : String) (args : List TypeExpr)
    (index : Nat)
    (h : ∃ j, j < args.length ∧
      inst (value.getD (index + j) ⟨""⟩)
        (_prepare_type_for_validation (args.getD j (.cls ""))) = false) :
    ∃ j, j < args.length ∧
      inst (value.getD (index + j) ⟨""⟩)
        (_prepare_type_for_validation (args.getD j (.cls ""))) = false ∧
      checkTupleArgs inst true value pfx kind args index
        = .error (.tupleTypeMismatch pfx kind (index + j)
            (_prepare_type_for_validation (args.getD j (.cls "")))
            (value.getD (index + j) ⟨""⟩)) := by
  induction args generalizing index with
  | nil =>
    obtain ⟨j, hj, -⟩ := h
    exact absurd hj (Nat.not_lt_zero j)
  | cons a rest ih =>
    by_cases hd : inst (value.getD index ⟨""⟩)
        (_prepare_type_for_validation a) = false
    · refine ⟨0, Nat.succ_pos _, ?_, ?_⟩
      · simpa using hd
      · simp only [checkTupleArgs]
        rw [hd]
        rfl
    · have hd' : inst (value.getD index ⟨""⟩)
          (_prepare_type_for_validation a) = true := by
        cases hinst : inst (value.getD index ⟨""⟩)
            (_prepare_type_for_validation a) with
        | true => rfl
        | false => exact absurd hinst hd
      obtain ⟨j0, hj0, hfail⟩ := h
      cases j0 with
      | zero =>
        rw [Nat.add_zero] at hfail
        simp only [List.getD_cons_zero] at hfail
        exact absurd hfail hd
      | succ j' =>
        have harith : index + (j' + 1) = index + 1 + j' := by omega
        have hrest : ∃ j, j < rest.length ∧
            inst (value.getD (index + 1 + j) ⟨""⟩)
              (_prepare_type_for_validation (rest.getD j (.cls ""))) = false := by
          refine ⟨j', Nat.lt_of_succ_lt_succ hj0, ?_⟩
          rw [← harith]
          simpa using hfail
        obtain ⟨j, hj, hf, heq⟩ := ih (index + 1) hrest
        have harith2 : index + 1 + j = index + (j + 1) := by omega
        refine ⟨j + 1, Nat.succ_lt_succ hj, ?_, ?_⟩
        · rw [show index + (j + 1) = index + 1 + j from by omega]
          simpa using hf
        · rw [show index + (j + 1) = index + 1 + j from by omega]
          have hgd : (a :: rest).getD (j + 1) (TypeExpr.cls "")
              = rest.getD j (.cls "") := by simp
          rw [hgd]
          simp only [checkTupleArgs]
          rw [hd']
          simpa using heq

/-- With the check inactive (runtime older than 3.11), the
positional-argument loop never raises. -/
theorem checkTupleArgs_skip (inst : PyValue → TypeExpr → Bool)
    (value : List PyValue) (pfx kind : String) (args : List TypeExpr)
    (index : Nat) :
    checkTupleArgs inst false value pfx kind args index = .ok () := by
  induction args generalizing index with
  | nil => rfl
  | cons a rest ih => simp [checkTupleArgs, ih]

/-- With the 3.11+ check active and no hinted required key missing, the
dict loop raises a type-mismatch error at an offending present key
whenever one exists. -/
theorem dictLoop_type_mismatch (inst : PyValue → TypeExpr → Bool)
    (value : List (String × PyValue)) (pfx kind : String)
    (required : List String) (hs : List (String × TypeExpr))
    (unseen : List String)
    (hpres : ∀ k ∈ hs.map Prod.fst, k ∈ required →
      (alookup value k).isSome = true)
    (h : ∃ kt ∈ hs, ∃ v, alookup value kt.1 = some v ∧
      inst v (_prepare_type_for_validation kt.2) = false) :
    ∃ k t v, alookup value k = some v ∧ (k, t) ∈ hs ∧
      inst v (_prepare_type_for_validation t) = false ∧
      dictLoop inst true value pfx kind required hs unseen
        = .error (.dictTypeMismatch pfx kind k
            (_prepare_type_for_validation t) v) := by
  induction hs generalizing unseen with
  | nil => simp at h
  | cons kt0 rest ih =>
    obtain ⟨key, ktype⟩ := kt0
    have hpres_rest : ∀ k ∈ rest.map Prod.fst, k ∈ required →
        (alookup value k).isSome = true :=
      fun k hk => hpres k (by simp [hk])
    obtain ⟨kt, hktmem, v0, hlook0, hfail0⟩ := h
    cases hcase : alookup value key with
    | none =>
      have hreq : key ∉ required := by
        intro hin
        have := hpres key (by simp) hin
        rw [hcase] at this
        cases this
      have hktrest : kt ∈ rest := by
        rcases List.mem_cons.mp hktmem with heq | hmem
        · subst heq
          rw [hcase] at hlook0
          cases hlook0
        · exact hmem
      obtain ⟨k, t, v, h1, h2, h3, h4⟩ :=
        ih unseen hpres_rest ⟨kt, hktrest, v0, hlook0, hfail0⟩
      exact ⟨k, t, v, h1, List.mem_cons_of_mem _ h2, h3,
        by simp [dictLoop, hcase, hreq, h4]⟩
    | some v =>
      by_cases hinst : inst v (_prepare_type_for_validation ktype) = false
      · exact ⟨key, ktype, v, hcase, List.mem_cons_self _ _, hinst,
          by simp [dictLoop, hcase, hinst]⟩
      · have hinst' : inst v (_prepare_type_for_validation ktype) = true := by
          cases hi : inst v (_prepare_type_for_validation ktype) with
          | true => rfl
          | false => exact absurd hi hinst
        have hktrest : kt ∈ rest := by
          rcases List.mem_cons.mp hktmem with heq | hmem
          · subst heq
            rw [hcase] at hlook0
            cases hlook0
            exact absurd hfail0 hinst
          · exact hmem
        obtain ⟨k, t, v1, h1, h2, h3, h4⟩ :=
          ih (unseen.erase key) hpres_rest ⟨kt, hktrest, v0, hlook0, hfail0⟩
        exact ⟨k, t, v1, h1, List.mem_cons_of_mem _ h2, h3,
          by simp [dictLoop, hcase, hinst', h4]⟩

/-- With the check inactive (runtime older than 3.11), any error the dict
loop raises is a missing-key error, never a type mismatch. -/
theorem dictLoop_skip_no_mismatch (inst : PyValue → TypeExpr → Bool)
    (value : List (String × PyValue)) (pfx kind : String)
    (required : List String) (hs : List (String × TypeExpr))
    (unseen : List String) (e : TypeErr)
    (he : dictLoop inst false value pfx kind required hs unseen = .error e) :
    e.isTypeMismatch = false := by
  induction hs generalizing unseen with
  | nil => cases he
  | cons kt0 rest ih =>
    obtain ⟨key, ktype⟩ := kt0
    simp only [dictLoop] at he
    cases hcase : alookup value key with
    | none =>
      rw [hcase] at he
      by_cases hreq : key ∈ required
      · rw [if_pos hreq] at he
        cases he
        rfl
      · rw [if_neg hreq] at he
        exact ih unseen he
    | some v =>
      rw [hcase] at he
      simp only [Bool.false_and, if_false] at he
      exact ih (unseen.erase key) he

/-- C3: on 3.11+ runtimes (`ver311 = true`), whenever some element of a
tuple value (with enough elements to pass the count check) or some
present hinted value of a mapping (with no required key missing) fails
`isinstance` against its declared type after
`_prepare_type_for_validation` resolution, the validator raises the
type-mismatch `TypeError` identifying an offending index (first
conjunct), resp. an offending key (third conjunct); on older runtimes
(`ver311 = false`) neither validator ever raises a type-mismatch error
(second and fourth conjuncts). -/
theorem per_value_type_check_gated_by_version
    (inst : PyValue → TypeExpr → Bool) (value : List PyValue)
    (dvalue : List (String × PyValue)) (args : List TypeExpr)
    (hints : List (String × TypeExpr)) (required : List String)
    (pfx kind : String) :
    (args.length ≤ value.length →
      (∃ j, j < args.length ∧
        inst (value.getD j ⟨""⟩)
          (_prepare_type_for_validation (args.getD j (.cls ""))) = false) →
      ∃ j, j < args.length ∧
        inst (value.getD j ⟨""⟩)
          (_prepare_type_for_validation (args.getD j (.cls ""))) = false ∧
        validate_typed_tuple inst true value (.tuple args) pfx kind
          = .error (.tupleTypeMismatch pfx kind j
              (_prepare_type_for_validation (args.getD j (.cls "")))
              (value.getD j ⟨""⟩))) ∧
    (∀ e, validate_typed_tuple inst false value (.tuple args) pfx kind
        = .error e → e.isTypeMismatch = false) ∧
    ((∀ k ∈ hints.map Prod.fst, k ∈ required →
        (alookup dvalue k).isSome = true) →
      (∃ kt ∈ hints, ∃ v, alookup dvalue kt.1 = some v ∧
        inst v (_prepare_type_for_validation kt.2) = false) →
      ∃ k t v, alookup dvalue k = some v ∧ (k, t) ∈ hints ∧
        inst v (_prepare_type_for_validation t) = false ∧
        validate_typed_dict inst true dvalue (.typedDict hints required)
          pfx kind
          = .error (.dictTypeMismatch pfx kind k
              (_prepare_type_for_validation t) v)) ∧
    (∀ e, validate_typed_dict inst false dvalue (.typedDict hints required)
        pfx kind = .error e → e.isTypeMismatch = false) := by
  refine ⟨?_, ?_, ?_, ?_⟩
  · intro hlen h
    have h0 : ∃ j, j < args.length ∧
        inst (value.getD (0 + j) ⟨""⟩)
          (_prepare_type_for_validation (args.getD j (.cls ""))) = false := by
      obtain ⟨j, hj, hf⟩ := h
      exact ⟨j, hj, by rw [Nat.zero_add]; exact hf⟩
    obtain ⟨j, hj, hf, heq⟩ :=
      checkTupleArgs_mismatch inst value pfx kind args 0 h0
    rw [Nat.zero_add] at hf heq
    refine ⟨j, hj, hf, ?_⟩
    simp only [validate_typed_tuple]
    rw [if_neg (by omega), heq]
  · intro e he
    simp only [validate_typed_tuple] at he
    by_cases hlen : args.length > value.length
    · rw [if_pos hlen] at he
      cases he
      rfl
    · rw [if_neg hlen, checkTupleArgs_skip] at he
      cases he
  · intro hpres h
    obtain ⟨k, t, v, h1, h2, h3, h4⟩ :=
      dictLoop_type_mismatch inst dvalue pfx kind required hints
        (dvalue.map Prod.fst) hpres h
    exact ⟨k, t, v, h1, h2, h3, by simp [validate_typed_dict, h4]⟩
  · intro e
    simp only [validate_typed_dict]
    cases hloop : dictLoop inst false dvalue pfx kind required hints
        (dvalue.map Prod.fst) with
    | error e0 =>
      intro he
      have he2 : e0 = e := Except.error.inj he
      subst he2
      exact dictLoop_skip_no_mismatch inst dvalue pfx kind required hints
        (dvalue.map Prod.fst) e0 hloop
    | ok unseen =>
      intro he
      have he2 : (if unseen.isEmpty = true then (Except.ok () : Except TypeErr Unit)
          else .error (.unexpectedKeys pfx kind unseen)) = .error e := he
      by_cases hie : unseen.isEmpty = true
      · rw [if_pos hie] at he2
        cases he2
      · rw [if_neg hie] at he2
        have he3 : TypeErr.unexpectedKeys pfx kind unseen = e :=
          Except.error.inj he2
        subst he3
        rfl

/-- C3 witness: on a 3.11+ runtime, a one-element tuple value holding a
`str` checked against `Tuple[int]` raises the type-mismatch error at
index 0. -/
theorem per_value_type_check_gated_by_version_witness :
    ∃ j, j < 1 ∧
      instByClass ([(⟨"str"⟩ : PyValue)].getD j ⟨""⟩)
        (_prepare_type_for_validation ([TypeExpr.cls "int"].getD j (.cls "")))
        = false ∧
      validate_typed_tuple instByClass true [⟨"str"⟩]
        (.tuple [.cls "int"]) "Component 'test'" "positional argument"
        = .error (.tupleTypeMismatch "Component 'test'"
            "positional argument" j
            (_prepare_type_for_validation
              ([TypeExpr.cls "int"].getD j (.cls "")))
            ([(⟨"str"⟩ : PyValue)].getD j ⟨""⟩)) :=
  (per_value_type_check_gated_by_version instByClass [⟨"str"⟩] []
      [TypeExpr.cls "int"] [] [] "Component 'test'"
      "positional argument").1
    (by decide) ⟨0, by decide, by decide⟩

end DjangoComponents
